import Mathlib

/-!
Shallow embedding of the handsfree-office-v2 gesture server.

The embedding covers:
  * `server/gestures.py` — `CameraGestureEngine`: the per-action cooldown
    gate `_emit`, the pose classifier `_classify`, and the per-frame body
    of the `_run` loop (velocity from the centroid window, majority vote
    over the pose-history window, the scroll / zoom / history / tab rules
    and the app-switcher state machine, and the reset on a no-hand frame).
  * `server/server.py` — `MouseController.update_cursor` (velocity-vector
    path with low-pass filter, deadband and idle decay) and
    `MouseController.update_cursor_from_angles` (tilt-angle path with
    single-axis dominance).

Machine reals (Python floats) are modelled as `ℚ`: every operation the
claims touch is field arithmetic with comparisons, so exact rationals give
the same branch structure.  `time.monotonic()` readings are passed in as
explicit `ℚ` parameters.  The geometric finger-extension test
(`_is_extended`, an arccos threshold) is not needed by any claim beyond
its boolean outcome, so `_classify` takes the five per-finger booleans as
inputs and the embedding covers everything `_classify` computes from them.
-/

namespace Gestures

/-! Section: The `_emit` cooldown gate (`gestures.py` lines 76–84)

`self._last_emit` is a dict defaulting to `0.0`; we model it as a total
function `String → ℚ`.  `tryEmit` is the pure gate: it returns the updated
map and whether the sink callback is invoked.  The timestamp is written
*before* the callback runs, mirroring the source order
(`self._last_emit[action] = now` precedes `self.on_action(action)`). -/

/-- One `_emit` call: deliver iff `now - last ≥ cooldown`; on delivery the
per-action timestamp is set to `now`. -/
def tryEmit (le : String → ℚ) (action : String) (cooldown now : ℚ) :
    (String → ℚ) × Bool :=
  if cooldown ≤ now - le action then
    (fun b => if b = action then now else le b, true)
  else
    (le, false)

/-- The sink callback may raise (`Except.error`); `_emit` wraps the call in
`try/except Exception: pass`, so the gate state and control flow never
depend on the outcome.  Returns the updated map and whether the sink was
invoked. -/
def emitWithSink (sink : String → Except String Unit) (le : String → ℚ)
    (action : String) (cooldown now : ℚ) : (String → ℚ) × Bool :=
  if cooldown ≤ now - le action then
    let le' : String → ℚ := fun b => if b = action then now else le b
    match sink action with
    | .ok _ => (le', true)
    | .error _ => (le', true)   -- exception caught: state already updated
  else
    (le, false)

/-- An emission attempt: action name, the cooldown passed at the call
site, and the `time.monotonic()` reading inside `_emit`. -/
structure Attempt where
  action : String
  cooldown : ℚ
  time : ℚ

/-- Run a sequence of `_emit` calls from a gate map, collecting the
delivered `(action, time)` pairs in order. -/
def runEmits (le : String → ℚ) : List Attempt → (String → ℚ) × List (String × ℚ)
  | [] => (le, [])
  | a :: rest =>
    let r := tryEmit le a.action a.cooldown a.time
    let s := runEmits r.1 rest
    (s.1, (if r.2 then [(a.action, a.time)] else []) ++ s.2)

/-- The initial gate map: `self._last_emit = {}` with `.get(action, 0.0)`. -/
def initEmit : String → ℚ := fun _ => 0

/-! Section: `_classify` (`gestures.py` lines 90–120)

The returned dict has keys `cx, cy, ext_idx, ext_mid, ext_ring, ext_pky,
four_ext, is_fist, pinch`.  Note it does **not** contain a key
`ext_thumb`, although `ext_thumb` is computed and folded into `four_ext`. -/

/-- The feature dict `_classify` returns, field for field. -/
structure Feats where
  cx : ℚ
  cy : ℚ
  ext_idx : Bool
  ext_mid : Bool
  ext_ring : Bool
  ext_pky : Bool
  four_ext : ℕ
  is_fist : Bool
  pinch : ℚ
deriving DecidableEq, Repr

/-- Function `_classify`, with the five `_is_extended` outcomes as inputs.
`four_ext = int(ext_idx)+int(ext_mid)+int(ext_ring)+int(ext_pky)+int(ext_thumb)`
and `is_fist = (four_ext == 0)`.  The thumb flag is consumed here and not
stored in the dict. -/
def classify (cx cy : ℚ) (ext_idx ext_mid ext_ring ext_pky ext_thumb : Bool)
    (pinch : ℚ) : Feats :=
  let four_ext := (cond ext_idx 1 0) + (cond ext_mid 1 0) + (cond ext_ring 1 0)
    + (cond ext_pky 1 0) + (cond ext_thumb 1 0)
  { cx := cx, cy := cy,
    ext_idx := ext_idx, ext_mid := ext_mid, ext_ring := ext_ring,
    ext_pky := ext_pky,
    four_ext := four_ext,
    is_fist := four_ext == 0,
    pinch := pinch }

/-- Lookup `feats.get("ext_thumb", False)` in the `_run` loop: the key is absent
from the dict `_classify` builds, so the lookup always yields the default. -/
def getExtThumb (_f : Feats) : Bool := false

/-! Section: The `_run` per-frame state (`gestures.py` lines 53–62, 141–256) -/

/-- One entry of `self._state_hist` (lines 166–172). -/
structure Frame where
  four_ext : ℕ
  is_fist : Bool
  cy : ℚ
  vx : ℚ
  vy : ℚ
deriving DecidableEq, Repr

/-- The engine's per-run mutable state. `_mode_started_t` is written once
and never read, so it is omitted. -/
structure EngineState where
  lastEmit : String → ℚ                 -- self._last_emit
  lastPinch : Option ℚ                  -- self._last_pinch_d
  modeAppswitch : Bool                  -- self._mode_appswitch
  centroidHist : List (ℚ × ℚ × ℚ)       -- self._centroid_hist (deque maxlen=5)
  lastT : Option ℚ                      -- self._last_t
  openHandStart : Option ℚ              -- self._open_hand_start_t
  stateHist : List Frame                -- self._state_hist (deque maxlen=6)

/-- Semantics of `deque(maxlen=n).append(x)`: append right, drop from the left past
capacity. -/
def dequeAppend (n : ℕ) (xs : List α) (x : α) : List α :=
  let ys := xs ++ [x]
  ys.drop (ys.length - n)

/-- Majority vote `_maj` (lines 175–176): strictly more than
`len(hist) // 2` buffered samples satisfy the predicate. -/
def maj (hist : List Frame) (pred : Frame → Bool) : Bool :=
  hist.length / 2 < hist.countP pred

/-- Signal `four_open_now = _maj("four_ext", lambda n: n == 4)` (line 178). -/
def four_open_now (hist : List Frame) : Bool :=
  maj hist (fun s => s.four_ext == 4)

/-- Signal `fist_now = _maj("is_fist", lambda b: b is True)` (line 179). -/
def fist_now (hist : List Frame) : Bool :=
  maj hist (fun s => s.is_fist)

/-- Velocity from the centroid window (lines 154–160): oldest vs newest
sample, `dt = max(1e-3, t1 - t0)`; zero while fewer than two samples. -/
def computeVel (ch : List (ℚ × ℚ × ℚ)) : ℚ × ℚ :=
  if 2 ≤ ch.length then
    let p0 := ch.headD (0, 0, 0)
    let p1 := ch.getLastD (0, 0, 0)
    let dt := max (1/1000) (p1.2.2 - p0.2.2)
    ((p1.1 - p0.1) / dt, (p1.2.1 - p0.2.1) / dt)
  else (0, 0)

/-- Smoothed `vy_sm` (lines 182–184): mean of the last two `vy` entries once the
window holds at least two samples, else `0.0`. -/
def vySm (sh : List Frame) : ℚ :=
  if 2 ≤ sh.length then
    ((sh.drop (sh.length - 2)).map Frame.vy).sum / 2
  else 0

/-- Pose test `idx_only` (line 188): note the dead `feats.get("ext_thumb", False)`
conjunct, which is always `False` because the key is missing. -/
def idxOnly (f : Feats) : Bool :=
  f.ext_idx && !f.ext_mid && !f.ext_ring && !f.ext_pky && !(getExtThumb f)

/-- Pose test `pky_only` (line 189), same dead thumb conjunct. -/
def pkyOnly (f : Feats) : Bool :=
  f.ext_pky && !f.ext_idx && !f.ext_mid && !f.ext_ring && !(getExtThumb f)

/-- One `self._emit(a, cooldown)` call seen from the engine state: run the
gate, record the delivery. -/
def fireEmit (a : String) (cd t : ℚ) (s : EngineState) :
    EngineState × List String :=
  let r := tryEmit s.lastEmit a cd t
  ({ s with lastEmit := r.1 }, if r.2 then [a] else [])

/-- Scroll rule (lines 195–200): pose alone, cooldown `0.01`. -/
def scrollRule (f : Feats) (t : ℚ) (s : EngineState) :
    EngineState × List String :=
  if idxOnly f then fireEmit "scroll_up" (1/100) t s
  else if pkyOnly f then fireEmit "scroll_down" (1/100) t s
  else (s, [])

/-- Zoom rule (lines 204–208): 3–4 fingers plus fast vertical motion,
cooldown `0.5`. -/
def zoomRule (f : Feats) (vx vy_sm t : ℚ) (s : EngineState) :
    EngineState × List String :=
  if (3 ≤ f.four_ext ∧ f.four_ext ≤ 4) ∧ 9/10 < |vy_sm| ∧ |vx| * (6/5) < |vy_sm| then
    fireEmit (if vy_sm < 0 then "zoom_in" else "zoom_out") (1/2) t s
  else (s, [])

/-- History rule (lines 211–215): open hand plus fast horizontal motion,
default cooldown `0.25`. -/
def historyRule (f : Feats) (vx vy t : ℚ) (s : EngineState) :
    EngineState × List String :=
  if f.four_ext = 5 ∧ 6/5 < |vx| ∧ |vy| * (13/10) < |vx| then
    fireEmit (if 0 < vx then "history_forward" else "history_back") (1/4) t s
  else (s, [])

/-- Tab rule (lines 218–222): two fingers plus horizontal motion, default
cooldown `0.25`. -/
def tabRule (f : Feats) (vx vy t : ℚ) (s : EngineState) :
    EngineState × List String :=
  if f.four_ext = 2 ∧ 1 < |vx| ∧ |vy| * (6/5) < |vx| then
    fireEmit (if 0 < vx then "next_tab" else "prev_tab") (1/4) t s
  else (s, [])

/-- The Idle hold-timer branch (lines 227–235), dispatching on
`self._open_hand_start_t`: start the timer if unset, else emit
`app_switcher_start` and enter Active once `t - start ≥ 2.0`. -/
def idleHold (t : ℚ) (s : EngineState) : Option ℚ → EngineState × List String
  | none => ({ s with openHandStart := some t }, [])
  | some t0 =>
    if 2 ≤ t - t0 then
      let e := fireEmit "app_switcher_start" (1/4) t s
      ({ e.1 with modeAppswitch := true, openHandStart := none }, e.2)
    else (s, [])

/-- App-switcher state machine (lines 225–252).  Idle
(`_mode_appswitch = False`): the hold condition is the **current frame's**
`four_ext >= 5` together with `abs(vx)+abs(vy) < 0.3`; it starts or checks
the hold timer via `idleHold`.  Any violating frame resets the timer.
Active: horizontal motion emits `app_switcher_next`/`app_switcher_prev`;
a current-frame fist emits `app_switcher_commit` and returns to Idle. -/
def appSwitchRule (f : Feats) (vx vy t : ℚ) (s : EngineState) :
    EngineState × List String :=
  if s.modeAppswitch = false then
    if 5 ≤ f.four_ext ∧ |vx| + |vy| < 3/10 then
      idleHold t s s.openHandStart
    else ({ s with openHandStart := none }, [])
  else
    let nav :=
      if 1 < |vx| ∧ |vy| < |vx| then
        fireEmit (if 0 < vx then "app_switcher_next" else "app_switcher_prev")
          (1/4) t s
      else (s, [])
    if f.is_fist then
      let e := fireEmit "app_switcher_commit" (1/4) t nav.1
      ({ e.1 with modeAppswitch := false, openHandStart := none },
        nav.2 ++ e.2)
    else (nav.1, nav.2)

/-- One detected frame (lines 141–252).  If `_last_t` is `None` the frame
only re-seeds the clock marker and the centroid window and `continue`s
(lines 148–152); otherwise the centroid and pose windows are appended,
velocities computed, and the rules run in source order.  Each `_emit` call
reads `time.monotonic()`; we pass the frame timestamp `t` to all of them.
Returns the new state and the delivered actions in order. -/
def stepDetected (s : EngineState) (f : Feats) (t : ℚ) :
    EngineState × List String :=
  match s.lastT with
  | none =>
    ({ s with lastT := some t, centroidHist := [(f.cx, f.cy, t)] }, [])
  | some _ =>
    let ch := dequeAppend 5 s.centroidHist (f.cx, f.cy, t)
    let v := computeVel ch
    let vx := v.1
    let vy := v.2
    let sh := dequeAppend 6 s.stateHist
      ⟨f.four_ext, f.is_fist, f.cy, vx, vy⟩
    let vy_sm := vySm sh
    let s0 : EngineState := { s with centroidHist := ch, stateHist := sh }
    let r1 := scrollRule f t s0
    let r2 := zoomRule f vx vy_sm t r1.1
    let r3 := historyRule f vx vy t r2.1
    let r4 := tabRule f vx vy t r3.1
    let r5 := appSwitchRule f vx vy t r4.1
    (r5.1, r1.2 ++ r2.2 ++ r3.2 ++ r4.2 ++ r5.2)

/-- A frame with no detected hand (lines 253–256): clear `_last_t`, the
centroid window and `_last_pinch_d`.  Nothing else is touched. -/
def stepNoHand (s : EngineState) : EngineState :=
  { s with lastT := none, centroidHist := [], lastPinch := none }

end Gestures

namespace Server

/-!  ## `MouseController` (`server.py` lines 49–341)

Tuning constants from `server.py` lines 55–65, plus the per-instance
`alpha`/`idle_timeout` from `MouseController.__init__`. -/

def CURSOR_PIXELS_PER_SEC : ℚ := 1800
def CURSOR_DEAD_SPEED : ℚ := 3/100
def DEAD_ZONE_DEG : ℚ := 10
def V_MIN : ℚ := 120
def V_MAX : ℚ := 520
def SAT_ANGLE_DEG : ℚ := 25
def ALPHA_ANGLE : ℚ := 1/5
def MAX_STEP_PX : ℚ := 16
def alpha : ℚ := 7/20
def idle_timeout : ℚ := 1/25

/-- The controller's mutable fields. -/
structure MouseState where
  vx_f : ℚ
  vy_f : ℚ
  last_input_t : ℚ
  roll_f : ℚ
  pitch_f : ℚ
deriving DecidableEq, Repr

/-- Helper `MouseController._clamp`. -/
def clampQ (x lo hi : ℚ) : ℚ := max lo (min hi x)

/-- Method `update_cursor` (lines 259–293), the vx/vy streaming path: clamp
`dt`, low-pass filter, deadband, idle decay (when the gap since the last
call exceeds `idle_timeout` both filtered axes are zeroed — *after* the
filter and deadband have run on the new sample), then pixel deltas with a
±24 px clamp.  `now` is the `time.monotonic()` reading at the top of the
call.  Returns the new state and the `(dx, dy)` passed to `moveRel`
(`(0, 0)` meaning no call is made). -/
def update_cursor (s : MouseState) (vx vy dt now : ℚ) :
    MouseState × (ℚ × ℚ) :=
  let dt := clampQ dt (1/200) (1/20)
  let vxf1 := alpha * vx + (1 - alpha) * s.vx_f
  let vyf1 := alpha * vy + (1 - alpha) * s.vy_f
  let vxf2 := if |vxf1| < CURSOR_DEAD_SPEED then 0 else vxf1
  let vyf2 := if |vyf1| < CURSOR_DEAD_SPEED then 0 else vyf1
  let vxf3 := if idle_timeout < now - s.last_input_t then 0 else vxf2
  let vyf3 := if idle_timeout < now - s.last_input_t then 0 else vyf2
  let dx := clampQ (vxf3 * CURSOR_PIXELS_PER_SEC * dt) (-24) 24
  let dy := clampQ (-vyf3 * CURSOR_PIXELS_PER_SEC * dt) (-24) 24
  ({ s with vx_f := vxf3, vy_f := vyf3, last_input_t := now },
    if dx = 0 ∧ dy = 0 then (0, 0) else (dx, dy))

/-- Variant following the spec's words for the idle decay (claim C6):
"both filtered axes are forced to zero **before** processing the new
sample", i.e. the zeroing precedes the low-pass filter, so the new sample
is filtered as if restarting from zero.  Kept only to compare against the
source-faithful `update_cursor`. -/
def update_cursor_specC6 (s : MouseState) (vx vy dt now : ℚ) :
    MouseState × (ℚ × ℚ) :=
  let dt := clampQ dt (1/200) (1/20)
  let vx0 := if idle_timeout < now - s.last_input_t then 0 else s.vx_f
  let vy0 := if idle_timeout < now - s.last_input_t then 0 else s.vy_f
  let vxf1 := alpha * vx + (1 - alpha) * vx0
  let vyf1 := alpha * vy + (1 - alpha) * vy0
  let vxf2 := if |vxf1| < CURSOR_DEAD_SPEED then 0 else vxf1
  let vyf2 := if |vyf1| < CURSOR_DEAD_SPEED then 0 else vyf1
  let dx := clampQ (vxf2 * CURSOR_PIXELS_PER_SEC * dt) (-24) 24
  let dy := clampQ (-vyf2 * CURSOR_PIXELS_PER_SEC * dt) (-24) 24
  ({ s with vx_f := vxf2, vy_f := vyf2, last_input_t := now },
    if dx = 0 ∧ dy = 0 then (0, 0) else (dx, dy))

/-- Helper `_axis_speed` (lines 296–299): quadratic ramp from `V_MIN` at the
dead-zone edge to `V_MAX` at saturation. -/
def axis_speed (angle_deg : ℚ) : ℚ :=
  let eff := max 0 (|angle_deg| - DEAD_ZONE_DEG)
  let n := min 1 (eff / SAT_ANGLE_DEG)
  V_MIN + (V_MAX - V_MIN) * (n * n)

/-- Method `update_cursor_from_angles` (lines 301–341): low-pass the angles,
pick a single dominant axis (zeroing the other), integrate to per-tick
deltas clamped to ±`MAX_STEP_PX`.  Returns the new state and the `(dx,
dy)` passed to `moveRel` (`(0, 0)` meaning no call). -/
def update_cursor_from_angles (s : MouseState) (roll_deg pitch_deg dt : ℚ) :
    MouseState × (ℚ × ℚ) :=
  let rf := ALPHA_ANGLE * roll_deg + (1 - ALPHA_ANGLE) * s.roll_f
  let pf := ALPHA_ANGLE * pitch_deg + (1 - ALPHA_ANGLE) * s.pitch_f
  let ax := |rf|
  let ay := |pf|
  let v : ℚ × ℚ :=
    if ax ≤ DEAD_ZONE_DEG ∧ ay ≤ DEAD_ZONE_DEG then (0, 0)
    else if ay ≤ ax then
      if DEAD_ZONE_DEG < ax then ((if 0 < rf then 1 else -1) * axis_speed rf, 0)
      else (0, 0)
    else
      if DEAD_ZONE_DEG < ay then (0, (if 0 < pf then 1 else -1) * axis_speed pf)
      else (0, 0)
  let dx := clampQ (v.1 * dt) (-MAX_STEP_PX) MAX_STEP_PX
  let dy := clampQ (v.2 * dt) (-MAX_STEP_PX) MAX_STEP_PX
  ({ s with roll_f := rf, pitch_f := pf },
    if dx = 0 ∧ dy = 0 then (0, 0) else (dx, dy))

end Server

open Gestures Server

/-! Section: Helper lemmas -/

/-- Gate `tryEmit` leaves every other action's timestamp unchanged. -/
theorem tryEmit_lastEmit_ne (le : String → ℚ) (a : String) (cd now : ℚ)
    (b : String) (hb : b ≠ a) : (tryEmit le a cd now).1 b = le b := by
  unfold tryEmit
  split <;> simp [hb]

/-- Gate `tryEmit` on a passing gate records `now` for the action. -/
theorem tryEmit_lastEmit_self (le : String → ℚ) (a : String) (cd now : ℚ)
    (h : cd ≤ now - le a) : (tryEmit le a cd now).1 a = now := by
  unfold tryEmit
  rw [if_pos h]
  simp

/-! Section: C7: majority vote is strict majority -/

/-- C7. The majority-vote gate `_maj` over the (capacity-6) pose-history
window returns `true` iff strictly more than half of the currently
buffered samples satisfy the predicate, and this gate is exactly what
defines the `four_open_now` and `fist_now` signals. -/
theorem maj_strict_majority_characterization
    (hist : List Frame) (pred : Frame → Bool) :
    (maj hist pred = true ↔ hist.length < 2 * hist.countP pred)
    ∧ four_open_now hist = maj hist (fun s => s.four_ext == 4)
    ∧ fist_now hist = maj hist (fun s => s.is_fist) := by
  refine ⟨?_, rfl, rfl⟩
  unfold maj
  rw [decide_eq_true_iff, Nat.div_lt_iff_lt_mul (by norm_num : 0 < 2),
    Nat.mul_comm]

/-- Witness for C7 at a concrete window: three of four samples open. -/
theorem maj_strict_majority_characterization_witness :
    maj [⟨4, false, 0, 0, 0⟩, ⟨4, false, 0, 0, 0⟩, ⟨4, false, 0, 0, 0⟩,
        ⟨0, true, 0, 0, 0⟩] (fun s => s.four_ext == 4) = true := by
  have h := (maj_strict_majority_characterization
    [⟨4, false, 0, 0, 0⟩, ⟨4, false, 0, 0, 0⟩, ⟨4, false, 0, 0, 0⟩,
      ⟨0, true, 0, 0, 0⟩] (fun s => s.four_ext == 4)).1
  rw [h]
  decide

/-! Section: C8: classifier count invariant -/

/-- C8. For every landmark frame, `_classify`'s feature record satisfies:
`four_ext` equals the sum of the five finger-extension flags (thumb,
index, middle, ring, pinky), lies in 0–5, and `is_fist` holds iff that
count is 0. -/
theorem classify_count_invariant (cx cy : ℚ)
    (ei em er ep eth : Bool) (pinch : ℚ) :
    (classify cx cy ei em er ep eth pinch).four_ext
        = (cond ei 1 0) + (cond em 1 0) + (cond er 1 0) + (cond ep 1 0)
          + (cond eth 1 0)
    ∧ (classify cx cy ei em er ep eth pinch).four_ext ≤ 5
    ∧ ((classify cx cy ei em er ep eth pinch).is_fist = true
        ↔ (classify cx cy ei em er ep eth pinch).four_ext = 0) := by
  refine ⟨rfl, ?_, ?_⟩ <;>
    cases ei <;> cases em <;> cases er <;> cases ep <;> cases eth <;>
      simp [classify]

/-! Section: C2: the no-hand reset (corrected) -/

/-- C2 counterexample. The claim says a no-hand frame clears *both*
rolling windows and the Idle hold timer; on this concrete state the
pose-history window and the hold timer survive `stepNoHand` untouched. -/
theorem no_hand_reset_counterexample :
    (stepNoHand
        { lastEmit := initEmit, lastPinch := some 1, modeAppswitch := false,
          centroidHist := [(0, 0, 0)], lastT := some 0,
          openHandStart := some 1,
          stateHist := [⟨5, false, 0, 0, 0⟩] }).stateHist ≠ []
    ∧ (stepNoHand
        { lastEmit := initEmit, lastPinch := some 1, modeAppswitch := false,
          centroidHist := [(0, 0, 0)], lastT := some 0,
          openHandStart := some 1,
          stateHist := [⟨5, false, 0, 0, 0⟩] }).openHandStart ≠ none := by
  refine ⟨?_, ?_⟩ <;> simp [stepNoHand]

/-- C2 amended. A no-hand frame clears only the centroid window, the
last-timestamp marker and the last-pinch marker; the pose-history window,
the app-switcher hold timer, the mode flag and the cooldown map are left
unchanged.  The very next detected frame is then a fresh start for the
velocity path: it only re-seeds `_last_t` and the centroid window and
emits nothing. -/
theorem no_hand_reset_amended (s : EngineState) (f : Feats) (t : ℚ) :
    (stepNoHand s).lastT = none
    ∧ (stepNoHand s).centroidHist = []
    ∧ (stepNoHand s).lastPinch = none
    ∧ (stepNoHand s).stateHist = s.stateHist
    ∧ (stepNoHand s).openHandStart = s.openHandStart
    ∧ (stepNoHand s).modeAppswitch = s.modeAppswitch
    ∧ (stepNoHand s).lastEmit = s.lastEmit
    ∧ stepDetected (stepNoHand s) f t
        = ({ stepNoHand s with lastT := some t, centroidHist := [(f.cx, f.cy, t)] },
            ([] : List String)) := by
  refine ⟨rfl, rfl, rfl, rfl, rfl, rfl, rfl, ?_⟩
  simp [stepDetected, stepNoHand]

/-! Section: C6: idle decay in the velocity-vector path (corrected) -/

/-- C6 counterexample.  With filtered velocity `0.5`, an input gap of
`0.05 s > 0.04 s` and a fresh sample `vx = 1`: the claim ("zeroed before
the new sample is processed, so the next filtered velocity is computed as
if restarting from zero") predicts `alpha * 1 = 0.35`; the source zeroes
*after* filtering, leaving `0`. -/
theorem idle_decay_order_counterexample :
    (update_cursor ⟨1/2, 0, 0, 0, 0⟩ 1 0 (1/50) (1/20)).1.vx_f = 0
    ∧ (update_cursor_specC6 ⟨1/2, 0, 0, 0, 0⟩ 1 0 (1/50) (1/20)).1.vx_f
        = 7/20 := by
  constructor <;>
    norm_num [update_cursor, update_cursor_specC6, clampQ, idle_timeout,
      alpha, CURSOR_DEAD_SPEED, CURSOR_PIXELS_PER_SEC, abs]

/-- C6 amended.  When more than `0.04 s` elapse between two consecutive
`update_cursor` calls, both filtered axes are forced to zero *after* the
new sample has been low-pass filtered: the gapped sample itself is
discarded (both filtered components end at exactly zero and the call
moves the cursor by nothing), and since `last_input_t` is refreshed, the
following sample is filtered as if restarting from zero. -/
theorem idle_decay_amended (s : MouseState) (vx vy dt now : ℚ)
    (hgap : idle_timeout < now - s.last_input_t) :
    (update_cursor s vx vy dt now).1.vx_f = 0
    ∧ (update_cursor s vx vy dt now).1.vy_f = 0
    ∧ (update_cursor s vx vy dt now).2 = (0, 0)
    ∧ (update_cursor s vx vy dt now).1.last_input_t = now := by
  unfold update_cursor
  simp only [hgap, if_true]
  norm_num [clampQ, max_def, min_def]

/-- Witness for C6 amended: a `0.05 s` gap at concrete inputs. -/
theorem idle_decay_amended_witness :
    (update_cursor ⟨1/2, 1/4, 0, 0, 0⟩ 1 1 (1/50) (1/20)).1.vx_f = 0
    ∧ (update_cursor ⟨1/2, 1/4, 0, 0, 0⟩ 1 1 (1/50) (1/20)).1.vy_f = 0
    ∧ (update_cursor ⟨1/2, 1/4, 0, 0, 0⟩ 1 1 (1/50) (1/20)).2 = (0, 0)
    ∧ (update_cursor ⟨1/2, 1/4, 0, 0, 0⟩ 1 1 (1/50) (1/20)).1.last_input_t
        = 1/20 := by
  exact idle_decay_amended ⟨1/2, 1/4, 0, 0, 0⟩ 1 1 (1/50) (1/20)
    (by norm_num [idle_timeout])

/-! Section: C9: tilt-angle path is single-axis -/

/-- C9. In tilt-angle mode every per-tick delta is single-axis: the axis
whose smoothed-angle magnitude is smaller is forced to exactly zero, and
when both smoothed angles are within the 10° dead zone both deltas are
zero — an emitted pointer move is never diagonal. -/
theorem tilt_angles_single_axis (s : MouseState) (roll pitch dt : ℚ) :
    ((update_cursor_from_angles s roll pitch dt).2.1 = 0
      ∨ (update_cursor_from_angles s roll pitch dt).2.2 = 0)
    ∧ (|(update_cursor_from_angles s roll pitch dt).1.roll_f| ≤ DEAD_ZONE_DEG
        → |(update_cursor_from_angles s roll pitch dt).1.pitch_f| ≤ DEAD_ZONE_DEG
        → (update_cursor_from_angles s roll pitch dt).2 = (0, 0))
    ∧ (|(update_cursor_from_angles s roll pitch dt).1.pitch_f|
          < |(update_cursor_from_angles s roll pitch dt).1.roll_f|
        → (update_cursor_from_angles s roll pitch dt).2.2 = 0)
    ∧ (|(update_cursor_from_angles s roll pitch dt).1.roll_f|
          < |(update_cursor_from_angles s roll pitch dt).1.pitch_f|
        → (update_cursor_from_angles s roll pitch dt).2.1 = 0) := by
  unfold update_cursor_from_angles
  simp only
  set rf := ALPHA_ANGLE * roll + (1 - ALPHA_ANGLE) * s.roll_f with hrf
  set pf := ALPHA_ANGLE * pitch + (1 - ALPHA_ANGLE) * s.pitch_f with hpf
  have hz : clampQ 0 (-MAX_STEP_PX) MAX_STEP_PX = 0 := by
    norm_num [clampQ, MAX_STEP_PX]
  by_cases hdead : |rf| ≤ DEAD_ZONE_DEG ∧ |pf| ≤ DEAD_ZONE_DEG
  · simp only [if_pos hdead]
    refine ⟨?_, ?_, ?_, ?_⟩ <;> simp [hz]
  · simp only [if_neg hdead]
    by_cases hdom : |pf| ≤ |rf|
    · simp only [if_pos hdom]
      by_cases hax : DEAD_ZONE_DEG < |rf|
      · simp only [if_pos hax]
        refine ⟨?_, ?_, ?_, ?_⟩
        · right
          split <;> (try split) <;> simp [hz]
        · intro h1 _
          exact absurd h1 (not_le.mpr hax)
        · intro _
          split <;> (try split) <;> simp [hz]
        · intro hlt
          exact absurd (lt_of_le_of_lt hdom hlt) (lt_irrefl _)
      · simp only [if_neg hax]
        refine ⟨?_, ?_, ?_, ?_⟩ <;> simp [hz]
    · simp only [if_neg hdom]
      by_cases hay : DEAD_ZONE_DEG < |pf|
      · simp only [if_pos hay]
        refine ⟨?_, ?_, ?_, ?_⟩
        · left
          split <;> (try split) <;> simp [hz]
        · intro _ h2
          exact absurd h2 (not_le.mpr hay)
        · intro hlt
          exact absurd hlt (not_lt.mpr (le_of_not_le hdom))
        · intro _
          split <;> (try split) <;> simp [hz]
      · simp only [if_neg hay]
        refine ⟨?_, ?_, ?_, ?_⟩ <;> simp [hz]

/-- Witness for C9: roll 30°, pitch 0°, `dt = 1/30` from rest — the
vertical delta is exactly zero. -/
theorem tilt_angles_single_axis_witness :
    (update_cursor_from_angles ⟨0, 0, 0, 0, 0⟩ 30 0 (1/30)).2.2 = 0 := by
  have h := (tilt_angles_single_axis ⟨0, 0, 0, 0, 0⟩ 30 0 (1/30)).2.2.1
  apply h
  norm_num [update_cursor_from_angles, ALPHA_ANGLE, clampQ, MAX_STEP_PX,
    DEAD_ZONE_DEG, axis_speed, V_MIN, V_MAX, SAT_ANGLE_DEG, abs]

/-! Section: Frame lemmas for the per-frame rules -/

theorem fireEmit_fst (a : String) (cd t : ℚ) (s : EngineState) :
    (fireEmit a cd t s).1
      = { s with lastEmit := (tryEmit s.lastEmit a cd t).1 } := rfl

theorem fireEmit_lastEmit_ne (a : String) (cd t : ℚ) (s : EngineState)
    (b : String) (hb : b ≠ a) :
    (fireEmit a cd t s).1.lastEmit b = s.lastEmit b :=
  tryEmit_lastEmit_ne s.lastEmit a cd t b hb

theorem fireEmit_delivered_sub (a : String) (cd t : ℚ) (s : EngineState) :
    ∀ x ∈ (fireEmit a cd t s).2, x = a := by
  intro x hx
  have hx' : x ∈ (if (tryEmit s.lastEmit a cd t).2 = true then [a] else []) :=
    hx
  split at hx'
  · simpa using hx'
  · simp at hx' 

theorem fireEmit_fires (a : String) (cd t : ℚ) (s : EngineState)
    (h : cd ≤ t - s.lastEmit a) :
    (fireEmit a cd t s).2 = [a]
    ∧ (fireEmit a cd t s).1.lastEmit a = t := by
  constructor
  · unfold fireEmit tryEmit
    rw [if_pos h]
    simp
  · rw [fireEmit_fst]
    exact tryEmit_lastEmit_self s.lastEmit a cd t h

/-- The first four rules (scroll, zoom, history, tab) leave the
app-switcher fields and windows alone, touch the cooldown map only at
their own action names, and deliver only their own action names. -/
theorem rules14_frame (f : Feats) (vx vy vy_sm t : ℚ) (s0 : EngineState) :
    ((tabRule f vx vy t
        (historyRule f vx vy t
          (zoomRule f vx vy_sm t (scrollRule f t s0).1).1).1).1.modeAppswitch
      = s0.modeAppswitch)
    ∧ ((tabRule f vx vy t
        (historyRule f vx vy t
          (zoomRule f vx vy_sm t (scrollRule f t s0).1).1).1).1.openHandStart
      = s0.openHandStart)
    ∧ ((tabRule f vx vy t
        (historyRule f vx vy t
          (zoomRule f vx vy_sm t (scrollRule f t s0).1).1).1).1.centroidHist
      = s0.centroidHist)
    ∧ ((tabRule f vx vy t
        (historyRule f vx vy t
          (zoomRule f vx vy_sm t (scrollRule f t s0).1).1).1).1.stateHist
      = s0.stateHist)
    ∧ ((tabRule f vx vy t
        (historyRule f vx vy t
          (zoomRule f vx vy_sm t (scrollRule f t s0).1).1).1).1.lastT
      = s0.lastT)
    ∧ (∀ b : String,
        b ∉ ["scroll_up", "scroll_down", "zoom_in", "zoom_out",
          "history_forward", "history_back", "next_tab", "prev_tab"] →
        (tabRule f vx vy t
          (historyRule f vx vy t
            (zoomRule f vx vy_sm t (scrollRule f t s0).1).1).1).1.lastEmit b
          = s0.lastEmit b)
    ∧ (∀ x, (x ∈ (scrollRule f t s0).2
          ∨ x ∈ (zoomRule f vx vy_sm t (scrollRule f t s0).1).2
          ∨ x ∈ (historyRule f vx vy t
              (zoomRule f vx vy_sm t (scrollRule f t s0).1).1).2
          ∨ x ∈ (tabRule f vx vy t
              (historyRule f vx vy t
                (zoomRule f vx vy_sm t (scrollRule f t s0).1).1).1).2) →
        x ∈ ["scroll_up", "scroll_down", "zoom_in", "zoom_out",
          "history_forward", "history_back", "next_tab", "prev_tab"]) := by
  have hscroll : ∀ s : EngineState,
      ((scrollRule f t s).1.modeAppswitch = s.modeAppswitch
        ∧ (scrollRule f t s).1.openHandStart = s.openHandStart
        ∧ (scrollRule f t s).1.centroidHist = s.centroidHist
        ∧ (scrollRule f t s).1.stateHist = s.stateHist
        ∧ (scrollRule f t s).1.lastT = s.lastT)
      ∧ (∀ b : String, b ≠ "scroll_up" → b ≠ "scroll_down" →
          (scrollRule f t s).1.lastEmit b = s.lastEmit b)
      ∧ (∀ x ∈ (scrollRule f t s).2,
          x = "scroll_up" ∨ x = "scroll_down") := by
    intro s
    unfold scrollRule
    split
    · exact ⟨⟨rfl, rfl, rfl, rfl, rfl⟩,
        fun b hb _ => fireEmit_lastEmit_ne _ _ _ _ b hb,
        fun x hx => Or.inl (fireEmit_delivered_sub _ _ _ _ x hx)⟩
    · split
      · exact ⟨⟨rfl, rfl, rfl, rfl, rfl⟩,
          fun b _ hb => fireEmit_lastEmit_ne _ _ _ _ b hb,
          fun x hx => Or.inr (fireEmit_delivered_sub _ _ _ _ x hx)⟩
      · exact ⟨⟨rfl, rfl, rfl, rfl, rfl⟩, fun b _ _ => rfl, fun x hx => by
          simp at hx⟩
  have hzoom : ∀ s : EngineState,
      ((zoomRule f vx vy_sm t s).1.modeAppswitch = s.modeAppswitch
        ∧ (zoomRule f vx vy_sm t s).1.openHandStart = s.openHandStart
        ∧ (zoomRule f vx vy_sm t s).1.centroidHist = s.centroidHist
        ∧ (zoomRule f vx vy_sm t s).1.stateHist = s.stateHist
        ∧ (zoomRule f vx vy_sm t s).1.lastT = s.lastT)
      ∧ (∀ b : String, b ≠ "zoom_in" → b ≠ "zoom_out" →
          (zoomRule f vx vy_sm t s).1.lastEmit b = s.lastEmit b)
      ∧ (∀ x ∈ (zoomRule f vx vy_sm t s).2,
          x = "zoom_in" ∨ x = "zoom_out") := by
    intro s
    unfold zoomRule
    split
    · split
      · exact ⟨⟨rfl, rfl, rfl, rfl, rfl⟩,
          fun b hb _ => fireEmit_lastEmit_ne _ _ _ _ b hb,
          fun x hx => Or.inl (fireEmit_delivered_sub _ _ _ _ x hx)⟩
      · exact ⟨⟨rfl, rfl, rfl, rfl, rfl⟩,
          fun b _ hb => fireEmit_lastEmit_ne _ _ _ _ b hb,
          fun x hx => Or.inr (fireEmit_delivered_sub _ _ _ _ x hx)⟩
    · exact ⟨⟨rfl, rfl, rfl, rfl, rfl⟩, fun b _ _ => rfl, fun x hx => by
        simp at hx⟩
  have hhist : ∀ s : EngineState,
      ((historyRule f vx vy t s).1.modeAppswitch = s.modeAppswitch
        ∧ (historyRule f vx vy t s).1.openHandStart = s.openHandStart
        ∧ (historyRule f vx vy t s).1.centroidHist = s.centroidHist
        ∧ (historyRule f vx vy t s).1.stateHist = s.stateHist
        ∧ (historyRule f vx vy t s).1.lastT = s.lastT)
      ∧ (∀ b : String, b ≠ "history_forward" → b ≠ "history_back" →
          (historyRule f vx vy t s).1.lastEmit b = s.lastEmit b)
      ∧ (∀ x ∈ (historyRule f vx vy t s).2,
          x = "history_forward" ∨ x = "history_back") := by
    intro s
    unfold historyRule
    split
    · split
      · exact ⟨⟨rfl, rfl, rfl, rfl, rfl⟩,
          fun b hb _ => fireEmit_lastEmit_ne _ _ _ _ b hb,
          fun x hx => Or.inl (fireEmit_delivered_sub _ _ _ _ x hx)⟩
      · exact ⟨⟨rfl, rfl, rfl, rfl, rfl⟩,
          fun b _ hb => fireEmit_lastEmit_ne _ _ _ _ b hb,
          fun x hx => Or.inr (fireEmit_delivered_sub _ _ _ _ x hx)⟩
    · exact ⟨⟨rfl, rfl, rfl, rfl, rfl⟩, fun b _ _ => rfl, fun x hx => by
        simp at hx⟩
  have htab : ∀ s : EngineState,
      ((tabRule f vx vy t s).1.modeAppswitch = s.modeAppswitch
        ∧ (tabRule f vx vy t s).1.openHandStart = s.openHandStart
        ∧ (tabRule f vx vy t s).1.centroidHist = s.centroidHist
        ∧ (tabRule f vx vy t s).1.stateHist = s.stateHist
        ∧ (tabRule f vx vy t s).1.lastT = s.lastT)
      ∧ (∀ b : String, b ≠ "next_tab" → b ≠ "prev_tab" →
          (tabRule f vx vy t s).1.lastEmit b = s.lastEmit b)
      ∧ (∀ x ∈ (tabRule f vx vy t s).2,
          x = "next_tab" ∨ x = "prev_tab") := by
    intro s
    unfold tabRule
    split
    · split
      · exact ⟨⟨rfl, rfl, rfl, rfl, rfl⟩,
          fun b hb _ => fireEmit_lastEmit_ne _ _ _ _ b hb,
          fun x hx => Or.inl (fireEmit_delivered_sub _ _ _ _ x hx)⟩
      · exact ⟨⟨rfl, rfl, rfl, rfl, rfl⟩,
          fun b _ hb => fireEmit_lastEmit_ne _ _ _ _ b hb,
          fun x hx => Or.inr (fireEmit_delivered_sub _ _ _ _ x hx)⟩
    · exact ⟨⟨rfl, rfl, rfl, rfl, rfl⟩, fun b _ _ => rfl, fun x hx => by
        simp at hx⟩
  obtain ⟨h1f, h1e, h1d⟩ := hscroll s0
  obtain ⟨h2f, h2e, h2d⟩ := hzoom (scrollRule f t s0).1
  obtain ⟨h3f, h3e, h3d⟩ :=
    hhist (zoomRule f vx vy_sm t (scrollRule f t s0).1).1
  obtain ⟨h4f, h4e, h4d⟩ :=
    htab (historyRule f vx vy t
      (zoomRule f vx vy_sm t (scrollRule f t s0).1).1).1
  refine ⟨?_, ?_, ?_, ?_, ?_, ?_, ?_⟩
  · rw [h4f.1, h3f.1, h2f.1, h1f.1]
  · rw [h4f.2.1, h3f.2.1, h2f.2.1, h1f.2.1]
  · rw [h4f.2.2.1, h3f.2.2.1, h2f.2.2.1, h1f.2.2.1]
  · rw [h4f.2.2.2.1, h3f.2.2.2.1, h2f.2.2.2.1, h1f.2.2.2.1]
  · rw [h4f.2.2.2.2, h3f.2.2.2.2, h2f.2.2.2.2, h1f.2.2.2.2]
  · intro b hb
    simp only [List.mem_cons, List.not_mem_nil, or_false, not_or] at hb
    obtain ⟨n1, n2, n3, n4, n5, n6, n7, n8⟩ := hb
    rw [h4e b n7 n8, h3e b n5 n6, h2e b n3 n4, h1e b n1 n2]
  · intro x hx
    rcases hx with hx | hx | hx | hx
    · rcases h1d x hx with rfl | rfl <;> simp
    · rcases h2d x hx with rfl | rfl <;> simp
    · rcases h3d x hx with rfl | rfl <;> simp
    · rcases h4d x hx with rfl | rfl <;> simp

/-! Section: C1: per-action cooldown spacing of deliveries -/

/-- The times at which a given action was delivered, in trace order. -/
def deliveredFor (a : String) (ds : List (String × ℚ)) : List ℚ :=
  (ds.filter (fun p => p.1 == a)).map Prod.snd

/-- Invariant for the cooldown gate: starting from any gate map, every
delivery of action `a` happens at least `c` after the stored stamp, and
the deliveries of `a` are mutually spaced by at least `c`. -/
theorem runEmits_spacing_aux (a : String) (c : ℚ) (hc : 0 ≤ c) :
    ∀ (trace : List Attempt) (le : String → ℚ),
      (∀ x ∈ trace, x.action = a → x.cooldown = c) →
      (∀ t ∈ deliveredFor a (runEmits le trace).2, le a + c ≤ t)
      ∧ List.Pairwise (fun t1 t2 => t1 + c ≤ t2)
          (deliveredFor a (runEmits le trace).2) := by
  intro trace
  induction trace with
  | nil =>
    intro le _
    simp [runEmits, deliveredFor]
  | cons x rest ih =>
    intro le hu
    have hurest : ∀ y ∈ rest, y.action = a → y.cooldown = c := fun y hy =>
      hu y (List.mem_cons_of_mem _ hy)
    by_cases hgate : x.cooldown ≤ x.time - le x.action
    · have hrun : runEmits le (x :: rest)
          = ((runEmits (fun b => if b = x.action then x.time else le b) rest).1,
            (x.action, x.time)
              :: (runEmits (fun b => if b = x.action then x.time else le b)
                    rest).2) := by
        simp [runEmits, tryEmit, hgate]
      by_cases hxa : x.action = a
      · have hcool : x.cooldown = c := hu x (List.mem_cons_self _ _) hxa
        have hle : le a + c ≤ x.time := by
          have := hgate
          rw [hcool, hxa] at this
          linarith
        obtain ⟨ih1, ih2⟩ :=
          ih (fun b => if b = x.action then x.time else le b) hurest
        have ih1' : ∀ t ∈ deliveredFor a
            (runEmits (fun b => if b = x.action then x.time else le b) rest).2,
            x.time + c ≤ t := by
          intro t ht
          have h := ih1 t ht
          rw [if_pos hxa.symm] at h
          exact h
        constructor
        · intro t ht
          rw [hrun] at ht
          simp only [deliveredFor, List.filter_cons] at ht
          rw [if_pos (by simpa using hxa)] at ht
          simp only [List.map_cons, List.mem_cons] at ht
          rcases ht with rfl | ht
          · exact hle
          · have := ih1' t ht
            linarith
        · rw [hrun]
          simp only [deliveredFor, List.filter_cons]
          rw [if_pos (by simpa using hxa)]
          simp only [List.map_cons]
          exact List.Pairwise.cons (fun t ht => ih1' t ht) ih2
      · obtain ⟨ih1, ih2⟩ :=
          ih (fun b => if b = x.action then x.time else le b) hurest
        have ih1' : ∀ t ∈ deliveredFor a
            (runEmits (fun b => if b = x.action then x.time else le b) rest).2,
            le a + c ≤ t := by
          intro t ht
          have h := ih1 t ht
          rw [if_neg (fun hh => hxa hh.symm)] at h
          exact h
        rw [hrun]
        simp only [deliveredFor, List.filter_cons]
        rw [if_neg (by simpa using hxa)]
        exact ⟨ih1', ih2⟩
    · have hrun : runEmits le (x :: rest)
          = ((runEmits le rest).1, (runEmits le rest).2) := by
        simp [runEmits, tryEmit, hgate]
      rw [hrun]
      exact ih le hurest

/-- C1. For every action name with a fixed call-site cooldown `c ≥ 0`,
the deliveries of that action out of the `_emit` gate (starting from the
empty `_last_emit` dict) are pairwise at least `c` apart: an attempt is
delivered only if at least `c` has elapsed since the action's stored
last-delivery stamp, and is otherwise dropped. -/
theorem emit_cooldown_pairwise_spacing (trace : List Attempt) (a : String)
    (c : ℚ) (hc : 0 ≤ c)
    (hu : ∀ x ∈ trace, x.action = a → x.cooldown = c) :
    List.Pairwise (fun t1 t2 => t1 + c ≤ t2)
      (deliveredFor a (runEmits initEmit trace).2) :=
  (runEmits_spacing_aux a c hc trace initEmit hu).2

/-- Witness for C1: three `zoom_in` attempts at times `1`, `5/4`, `2`
with cooldown `1/2` (the middle one is dropped by the gate). -/
theorem emit_cooldown_pairwise_spacing_witness :
    List.Pairwise (fun t1 t2 => t1 + (1/2 : ℚ) ≤ t2)
      (deliveredFor "zoom_in" (runEmits initEmit
        [⟨"zoom_in", 1/2, 1⟩, ⟨"zoom_in", 1/2, 5/4⟩, ⟨"zoom_in", 1/2, 2⟩]).2) := by
  apply emit_cooldown_pairwise_spacing _ _ _ (by norm_num)
  intro x hx _
  fin_cases hx <;> rfl

/-! Section: The app-switcher claims (C3, C4) -/

/-- Unfolding of a detected frame when `_last_t` is set. -/
theorem stepDetected_some (s : EngineState) (f : Feats) (t t' : ℚ)
    (h : s.lastT = some t') :
    stepDetected s f t =
      (let ch := dequeAppend 5 s.centroidHist (f.cx, f.cy, t)
       let v := computeVel ch
       let sh := dequeAppend 6 s.stateHist
         ⟨f.four_ext, f.is_fist, f.cy, v.1, v.2⟩
       let s0 : EngineState := { s with centroidHist := ch, stateHist := sh }
       let r1 := scrollRule f t s0
       let r2 := zoomRule f v.1 (vySm sh) t r1.1
       let r3 := historyRule f v.1 v.2 t r2.1
       let r4 := tabRule f v.1 v.2 t r3.1
       let r5 := appSwitchRule f v.1 v.2 t r4.1
       (r5.1, r1.2 ++ r2.2 ++ r3.2 ++ r4.2 ++ r5.2)) := by
  unfold stepDetected
  rw [h]

/-- Velocity computed for a detected frame at time `t` (after appending
the new centroid sample). -/
def frameVel (s : EngineState) (f : Feats) (t : ℚ) : ℚ × ℚ :=
  computeVel (dequeAppend 5 s.centroidHist (f.cx, f.cy, t))

/-- The pose-history window after appending this frame's entry. -/
def frameHist (s : EngineState) (f : Feats) (t : ℚ) : List Frame :=
  dequeAppend 6 s.stateHist
    ⟨f.four_ext, f.is_fist, f.cy, (frameVel s f t).1, (frameVel s f t).2⟩

/-- The engine state after the window appends, before any rule fires. -/
def preState (s : EngineState) (f : Feats) (t : ℚ) : EngineState :=
  { s with centroidHist := dequeAppend 5 s.centroidHist (f.cx, f.cy, t), stateHist := frameHist s f t }

def afterScroll (s : EngineState) (f : Feats) (t : ℚ) :
    EngineState × List String :=
  scrollRule f t (preState s f t)

def afterZoom (s : EngineState) (f : Feats) (t : ℚ) :
    EngineState × List String :=
  zoomRule f (frameVel s f t).1 (vySm (frameHist s f t)) t (afterScroll s f t).1

def afterHistory (s : EngineState) (f : Feats) (t : ℚ) :
    EngineState × List String :=
  historyRule f (frameVel s f t).1 (frameVel s f t).2 t (afterZoom s f t).1

def afterTab (s : EngineState) (f : Feats) (t : ℚ) :
    EngineState × List String :=
  tabRule f (frameVel s f t).1 (frameVel s f t).2 t (afterHistory s f t).1

def afterApp (s : EngineState) (f : Feats) (t : ℚ) :
    EngineState × List String :=
  appSwitchRule f (frameVel s f t).1 (frameVel s f t).2 t (afterTab s f t).1

/-- A detected frame with `_last_t` set runs the rule pipeline in source
order and concatenates the delivered actions. -/
theorem stepDetected_pipeline (s : EngineState) (f : Feats) (t t' : ℚ)
    (h : s.lastT = some t') :
    stepDetected s f t = ((afterApp s f t).1,
      (afterScroll s f t).2 ++ (afterZoom s f t).2 ++ (afterHistory s f t).2
        ++ (afterTab s f t).2 ++ (afterApp s f t).2) := by
  obtain ⟨le, lp, ma, chl, lt, oh, shl⟩ := s
  have h' : lt = some t' := h
  subst h'
  rfl

/-- The first four rules preserve the app-switcher fields and touch the
cooldown map only at their own eight action names, which are also the
only actions they can deliver. -/
theorem afterTab_frame (s : EngineState) (f : Feats) (t : ℚ) :
    (afterTab s f t).1.modeAppswitch = s.modeAppswitch
    ∧ (afterTab s f t).1.openHandStart = s.openHandStart
    ∧ (∀ b : String,
        b ∉ ["scroll_up", "scroll_down", "zoom_in", "zoom_out",
          "history_forward", "history_back", "next_tab", "prev_tab"] →
        (afterTab s f t).1.lastEmit b = s.lastEmit b)
    ∧ (∀ x ∈ (afterScroll s f t).2 ++ (afterZoom s f t).2
          ++ (afterHistory s f t).2 ++ (afterTab s f t).2,
        x ∈ ["scroll_up", "scroll_down", "zoom_in", "zoom_out",
          "history_forward", "history_back", "next_tab", "prev_tab"]) := by
  have h := rules14_frame f (frameVel s f t).1 (frameVel s f t).2
    (vySm (frameHist s f t)) t (preState s f t)
  have e4 : afterTab s f t
      = tabRule f (frameVel s f t).1 (frameVel s f t).2 t
          (historyRule f (frameVel s f t).1 (frameVel s f t).2 t
            (zoomRule f (frameVel s f t).1 (vySm (frameHist s f t)) t
              (scrollRule f t (preState s f t)).1).1).1 := rfl
  have e3 : afterHistory s f t
      = historyRule f (frameVel s f t).1 (frameVel s f t).2 t
          (zoomRule f (frameVel s f t).1 (vySm (frameHist s f t)) t
            (scrollRule f t (preState s f t)).1).1 := rfl
  have e2 : afterZoom s f t
      = zoomRule f (frameVel s f t).1 (vySm (frameHist s f t)) t
          (scrollRule f t (preState s f t)).1 := rfl
  have e1 : afterScroll s f t = scrollRule f t (preState s f t) := rfl
  refine ⟨?_, ?_, ?_, ?_⟩
  · rw [e4]
    exact h.1
  · rw [e4]
    exact h.2.1
  · intro b hb
    rw [e4]
    exact h.2.2.2.2.2.1 b hb
  · intro x hx
    simp only [List.mem_append] at hx
    apply h.2.2.2.2.2.2 x
    rw [e1, e2, e3, e4] at hx
    tauto

/-- The app-switcher-relevant fields of the pipeline state before the
app-switcher rule runs. -/
theorem afterTab_app_fields (s : EngineState) (f : Feats) (t : ℚ) :
    (afterTab s f t).1.modeAppswitch = s.modeAppswitch
    ∧ (afterTab s f t).1.openHandStart = s.openHandStart
    ∧ (afterTab s f t).1.lastEmit "app_switcher_start"
        = s.lastEmit "app_switcher_start"
    ∧ (afterTab s f t).1.lastEmit "app_switcher_commit"
        = s.lastEmit "app_switcher_commit" := by
  obtain ⟨h1, h2, h3, _⟩ := afterTab_frame s f t
  exact ⟨h1, h2, h3 _ (by simp), h3 _ (by simp)⟩

/-- No `app_switcher_*` action can come out of the first four rules. -/
theorem rules14_no_appswitch (s : EngineState) (f : Feats) (t : ℚ)
    (b : String)
    (hb : b ∉ ["scroll_up", "scroll_down", "zoom_in", "zoom_out",
      "history_forward", "history_back", "next_tab", "prev_tab"]) :
    ((afterScroll s f t).2 ++ (afterZoom s f t).2 ++ (afterHistory s f t).2
        ++ (afterTab s f t).2).count b = 0 := by
  apply List.count_eq_zero.mpr
  intro hmem
  exact hb ((afterTab_frame s f t).2.2.2 b hmem)

/-- The Idle-side behaviour of the app-switcher rule, case by case. -/
theorem appSwitchRule_idle (f : Feats) (vx vy t : ℚ) (s : EngineState)
    (hmode : s.modeAppswitch = false) :
    ((5 ≤ f.four_ext ∧ |vx| + |vy| < 3/10) →
      ((∀ t0, s.openHandStart = some t0 →
        ((2 ≤ t - t0 →
            (appSwitchRule f vx vy t s).1.modeAppswitch = true
            ∧ (appSwitchRule f vx vy t s).1.openHandStart = none
            ∧ (1/4 ≤ t - s.lastEmit "app_switcher_start" →
                (appSwitchRule f vx vy t s).2 = ["app_switcher_start"]))
          ∧ (t - t0 < 2 →
              (appSwitchRule f vx vy t s) = (s, []))))
        ∧ (s.openHandStart = none →
            (appSwitchRule f vx vy t s)
              = ({ s with openHandStart := some t }, []))))
    ∧ (¬(5 ≤ f.four_ext ∧ |vx| + |vy| < 3/10) →
        (appSwitchRule f vx vy t s)
          = ({ s with openHandStart := none }, [])) := by
  constructor
  · intro hcond
    constructor
    · intro t0 ht0
      have hrule : appSwitchRule f vx vy t s = idleHold t s (some t0) := by
        unfold appSwitchRule
        rw [if_pos hmode, if_pos hcond, ht0]
      have heq : idleHold t s (some t0)
          = if 2 ≤ t - t0 then
              ({ (fireEmit "app_switcher_start" (1/4) t s).1 with
                  modeAppswitch := true, openHandStart := none },
                (fireEmit "app_switcher_start" (1/4) t s).2)
            else (s, []) := rfl
      constructor
      · intro hheld
        rw [hrule, heq, if_pos hheld]
        refine ⟨rfl, rfl, ?_⟩
        intro hgate
        exact (fireEmit_fires _ _ _ _ hgate).1
      · intro hshort
        rw [hrule, heq, if_neg (not_le.mpr hshort)]
    · intro hnone
      unfold appSwitchRule
      rw [if_pos hmode, if_pos hcond, hnone]
      rfl
  · intro hcond
    unfold appSwitchRule
    rw [if_pos hmode, if_neg hcond]

/-- The Active-side behaviour of the app-switcher rule on a fist frame. -/
theorem appSwitchRule_active_fist (f : Feats) (vx vy t : ℚ) (s : EngineState)
    (hmode : s.modeAppswitch = true) (hfist : f.is_fist = true) :
    (appSwitchRule f vx vy t s).1.modeAppswitch = false
    ∧ (appSwitchRule f vx vy t s).1.openHandStart = none
    ∧ (1/4 ≤ t - s.lastEmit "app_switcher_commit" →
        (appSwitchRule f vx vy t s).2.count "app_switcher_commit" = 1) := by
  have hms : ¬(s.modeAppswitch = false) := by rw [hmode]; simp
  have hrule : appSwitchRule f vx vy t s
      = (let nav :=
          if 1 < |vx| ∧ |vy| < |vx| then
            fireEmit (if 0 < vx then "app_switcher_next" else "app_switcher_prev")
              (1/4) t s
          else (s, [])
         ({ (fireEmit "app_switcher_commit" (1/4) t nav.1).1 with
            modeAppswitch := false, openHandStart := none },
          nav.2 ++ (fireEmit "app_switcher_commit" (1/4) t nav.1).2)) := by
    unfold appSwitchRule
    rw [if_neg hms, if_pos hfist]
  rw [hrule]
  by_cases hnav : 1 < |vx| ∧ |vy| < |vx|
  · simp only [if_pos hnav]
    refine ⟨trivial, trivial, ?_⟩
    intro hgate
    have hle : (fireEmit
        (if 0 < vx then "app_switcher_next" else "app_switcher_prev")
        (1/4) t s).1.lastEmit "app_switcher_commit"
        = s.lastEmit "app_switcher_commit" := by
      apply fireEmit_lastEmit_ne
      split <;> simp
    have hfire := (fireEmit_fires "app_switcher_commit" (1/4) t
      (fireEmit (if 0 < vx then "app_switcher_next" else "app_switcher_prev")
        (1/4) t s).1 (by rw [hle]; exact hgate)).1
    rw [hfire, List.count_append]
    have hnavcount : ((fireEmit
        (if 0 < vx then "app_switcher_next" else "app_switcher_prev")
        (1/4) t s).2).count "app_switcher_commit" = 0 := by
      apply List.count_eq_zero.mpr
      intro hmem
      have hxa := fireEmit_delivered_sub _ _ _ _ _ hmem
      revert hxa
      split <;> simp
    rw [hnavcount]
    simp
  · simp only [if_neg hnav]
    refine ⟨trivial, trivial, ?_⟩
    intro hgate
    have hfire := (fireEmit_fires "app_switcher_commit" (1/4) t s hgate).1
    rw [hfire]
    simp

/-- C3 amended.  From the Idle app-switcher state, `app_switcher_start`
is emitted (subject to its default `0.25 s` cooldown) exactly once when
the **current frame's** extended-finger count is ≥ 5 and the combined
speed `|vx| + |vy| < 0.3` has held continuously for at least `2.0 s`: the
state then becomes Active and the hold timer is cleared.  Holding for
strictly less than `2.0 s` never emits `app_switcher_start` and leaves
the timer running; a frame violating the openness/stillness condition
resets the timer to none.  (The claim's "majority-voted" gate is not what
the code uses — see the counterexample.) -/
theorem app_switcher_start_amended (s : EngineState) (f : Feats)
    (t t' : ℚ) (hlt : s.lastT = some t') (hmode : s.modeAppswitch = false) :
    ((5 ≤ f.four_ext ∧ |(frameVel s f t).1| + |(frameVel s f t).2| < 3/10) →
      ((∀ t0, s.openHandStart = some t0 →
        ((2 ≤ t - t0 →
            (stepDetected s f t).1.modeAppswitch = true
            ∧ (stepDetected s f t).1.openHandStart = none
            ∧ (1/4 ≤ t - s.lastEmit "app_switcher_start" →
                (stepDetected s f t).2.count "app_switcher_start" = 1))
          ∧ (t - t0 < 2 →
              (stepDetected s f t).2.count "app_switcher_start" = 0
              ∧ (stepDetected s f t).1.modeAppswitch = false
              ∧ (stepDetected s f t).1.openHandStart = some t0)))
        ∧ (s.openHandStart = none →
            (stepDetected s f t).2.count "app_switcher_start" = 0
            ∧ (stepDetected s f t).1.openHandStart = some t)))
    ∧ (¬(5 ≤ f.four_ext ∧ |(frameVel s f t).1| + |(frameVel s f t).2| < 3/10) →
        (stepDetected s f t).2.count "app_switcher_start" = 0
        ∧ (stepDetected s f t).1.openHandStart = none
        ∧ (stepDetected s f t).1.modeAppswitch = false) := by
  rw [stepDetected_pipeline s f t t' hlt]
  obtain ⟨hm4, ho4, hs4, _⟩ := afterTab_app_fields s f t
  have hcount0 := rules14_no_appswitch s f t "app_switcher_start" (by simp)
  have happ : afterApp s f t
      = appSwitchRule f (frameVel s f t).1 (frameVel s f t).2 t
          (afterTab s f t).1 := rfl
  have hidle := appSwitchRule_idle f (frameVel s f t).1 (frameVel s f t).2 t
    (afterTab s f t).1 (by rw [hm4]; exact hmode)
  constructor
  · intro hcond
    have hidle1 := hidle.1 hcond
    constructor
    · intro t0 ht0
      have hsome : (afterTab s f t).1.openHandStart = some t0 := by
        rw [ho4]; exact ht0
      have hcase := hidle1.1 t0 hsome
      constructor
      · intro hheld
        obtain ⟨hmo, hop, hgatefn⟩ := hcase.1 hheld
        refine ⟨by rw [happ]; exact hmo, by rw [happ]; exact hop, ?_⟩
        intro hgate
        have hd5 : (afterApp s f t).2 = ["app_switcher_start"] := by
          rw [happ]
          apply hgatefn
          rw [hs4]
          exact hgate
        simp only [List.count_append, hcount0, hd5]
        simp
      · intro hshort
        have heq := hcase.2 hshort
        have h1 : (afterApp s f t).1 = (afterTab s f t).1 := by
          rw [happ, heq]
        have h2 : (afterApp s f t).2 = [] := by
          rw [happ, heq]
        refine ⟨?_, ?_, ?_⟩
        · simp only [List.count_append, hcount0, h2]
          simp
        · rw [h1, hm4]; exact hmode
        · rw [h1, ho4]; exact ht0
    · intro hnone
      have hnone' : (afterTab s f t).1.openHandStart = none := by
        rw [ho4]; exact hnone
      have heq := hidle1.2 hnone'
      have h1 : (afterApp s f t).1
          = { (afterTab s f t).1 with openHandStart := some t } := by
        rw [happ, heq]
      have h2 : (afterApp s f t).2 = [] := by
        rw [happ, heq]
      refine ⟨?_, ?_⟩
      · simp only [List.count_append, hcount0, h2]
        simp
      · rw [h1]
  · intro hcond
    have heq := hidle.2 hcond
    have h1 : (afterApp s f t).1
        = { (afterTab s f t).1 with openHandStart := none } := by
      rw [happ, heq]
    have h2 : (afterApp s f t).2 = [] := by
      rw [happ, heq]
    refine ⟨?_, ?_, ?_⟩
    · simp only [List.count_append, hcount0, h2]
      simp
    · rw [h1]
    · rw [h1]
      show (afterTab s f t).1.modeAppswitch = false
      rw [hm4]; exact hmode

/-- Witness for C3 amended: a fully open, still hand held since `t₀ = 0`,
frame at `t = 3` — `app_switcher_start` is delivered once and the engine
enters Active. -/
theorem app_switcher_start_amended_witness :
    (stepDetected
        ⟨initEmit, none, false, [(0, 0, 0)], some 0, some 0, []⟩
        (classify 0 0 true true true true true 0) 3).1.modeAppswitch = true
    ∧ (stepDetected
        ⟨initEmit, none, false, [(0, 0, 0)], some 0, some 0, []⟩
        (classify 0 0 true true true true true 0) 3).2.count
          "app_switcher_start" = 1 := by
  have hv : frameVel
      ⟨initEmit, none, false, [(0, 0, 0)], some 0, some 0, []⟩
      (classify 0 0 true true true true true 0) 3 = (0, 0) := by
    norm_num [frameVel, computeVel, dequeAppend, classify, max_def]
  have h := app_switcher_start_amended
    ⟨initEmit, none, false, [(0, 0, 0)], some 0, some 0, []⟩
    (classify 0 0 true true true true true 0) 3 0 rfl rfl
  have hcond : 5 ≤ (classify 0 0 true true true true true 0).four_ext
      ∧ |(frameVel
          ⟨initEmit, none, false, [(0, 0, 0)], some 0, some 0, []⟩
          (classify 0 0 true true true true true 0) 3).1|
        + |(frameVel
          ⟨initEmit, none, false, [(0, 0, 0)], some 0, some 0, []⟩
          (classify 0 0 true true true true true 0) 3).2| < 3/10 := by
    constructor
    · decide
    · rw [hv]
      norm_num
  have hheld := ((h.1 hcond).1 0 rfl).1 (by norm_num)
  exact ⟨hheld.1, hheld.2.2 (by norm_num [initEmit])⟩

/-- C4 amended.  While in the app-switcher Active state, a frame on which
the **current frame's** fist predicate is true causes (subject to the
default `0.25 s` cooldown) exactly one emission of `app_switcher_commit`
and a transition back to Idle with any pending hold timer cleared; a
subsequent identical wide-open hold can then restart the cycle.  (The
claim's "majority-voted" fist gate is not what the code uses — see the
counterexample.) -/
theorem app_switcher_commit_amended (s : EngineState) (f : Feats)
    (t t' : ℚ) (hlt : s.lastT = some t') (hmode : s.modeAppswitch = true)
    (hfist : f.is_fist = true)
    (hgate : 1/4 ≤ t - s.lastEmit "app_switcher_commit") :
    (stepDetected s f t).2.count "app_switcher_commit" = 1
    ∧ (stepDetected s f t).1.modeAppswitch = false
    ∧ (stepDetected s f t).1.openHandStart = none := by
  rw [stepDetected_pipeline s f t t' hlt]
  obtain ⟨hm4, ho4, _, hc4⟩ := afterTab_app_fields s f t
  have hcount0 := rules14_no_appswitch s f t "app_switcher_commit" (by simp)
  have happ : afterApp s f t
      = appSwitchRule f (frameVel s f t).1 (frameVel s f t).2 t
          (afterTab s f t).1 := rfl
  have hact := appSwitchRule_active_fist f (frameVel s f t).1
    (frameVel s f t).2 t (afterTab s f t).1 (by rw [hm4]; exact hmode) hfist
  refine ⟨?_, by rw [happ]; exact hact.1, by rw [happ]; exact hact.2.1⟩
  have hd5 := hact.2.2 (by rw [hc4]; exact hgate)
  simp only [List.count_append, hcount0, happ, hd5]

/-- Witness for C4 amended: Active state, a full-fist frame at `t = 1` —
one `app_switcher_commit` and back to Idle. -/
theorem app_switcher_commit_amended_witness :
    (stepDetected
        ⟨initEmit, none, true, [(0, 0, 0)], some 0, none, []⟩
        (classify 0 0 false false false false false 0) 1).2.count
          "app_switcher_commit" = 1
    ∧ (stepDetected
        ⟨initEmit, none, true, [(0, 0, 0)], some 0, none, []⟩
        (classify 0 0 false false false false false 0) 1).1.modeAppswitch
      = false := by
  have h := app_switcher_commit_amended
    ⟨initEmit, none, true, [(0, 0, 0)], some 0, none, []⟩
    (classify 0 0 false false false false false 0) 1 0 rfl rfl
    (by decide) (by norm_num [initEmit])
  exact ⟨h.1, h.2.1⟩

/-- Modelled from the spec: the claim's majority-openness gate,
"majority-voted `extended_count ≥ 5`", for comparison with what the code
actually tests (the current frame's raw `four_ext`). -/
def specMajorityOpen (hist : List Frame) : Bool :=
  maj hist (fun fr => 5 ≤ fr.four_ext)

/-- Modelled from the spec: the claim's majority-fist gate,
"majority-voted fist predicate", which the code computes (as `fist_now`)
but does not consult for the commit. -/
def specMajorityFist (hist : List Frame) : Bool :=
  fist_now hist

/-- C3 counterexample.  Pose window of five closed-hand frames plus a
current wide-open frame: the claim's majority-voted openness gate is
false on this frame (so per the claim the hold timer must reset and
nothing may be emitted), yet the code — which tests only the current
frame's `four_ext >= 5` — delivers `app_switcher_start` and enters
Active. -/
theorem app_switcher_start_majority_counterexample :
    specMajorityOpen (frameHist
      ⟨initEmit, none, false, [(0, 0, 0)], some 0, some 0,
        List.replicate 5 ⟨0, false, 0, 0, 0⟩⟩
      (classify 0 0 true true true true true 0) 3) = false
    ∧ (stepDetected
        ⟨initEmit, none, false, [(0, 0, 0)], some 0, some 0,
          List.replicate 5 ⟨0, false, 0, 0, 0⟩⟩
        (classify 0 0 true true true true true 0) 3).2
      = ["app_switcher_start"]
    ∧ (stepDetected
        ⟨initEmit, none, false, [(0, 0, 0)], some 0, some 0,
          List.replicate 5 ⟨0, false, 0, 0, 0⟩⟩
        (classify 0 0 true true true true true 0) 3).1.modeAppswitch
      = true := by
  refine ⟨?_, ?_, ?_⟩ <;>
    norm_num [specMajorityOpen, maj, frameHist, frameVel, stepDetected,
      classify, dequeAppend, computeVel, vySm, scrollRule, zoomRule,
      historyRule, tabRule, appSwitchRule, idleHold, fireEmit, tryEmit,
      idxOnly, pkyOnly, getExtThumb, initEmit, max_def, List.replicate,
      List.countP, List.countP.go]

/-- C4 counterexample.  Active state with a pose window of five fist
frames and a current non-fist frame: the claim's majority-voted fist gate
is true, yet the code — which tests only the current frame's `is_fist` —
emits nothing and stays in Active. -/
theorem app_switcher_commit_majority_counterexample :
    specMajorityFist (frameHist
      ⟨initEmit, none, true, [(0, 0, 0)], some 0, none,
        List.replicate 5 ⟨0, true, 0, 0, 0⟩⟩
      (classify 0 0 false true false false false 0) 1) = true
    ∧ (stepDetected
        ⟨initEmit, none, true, [(0, 0, 0)], some 0, none,
          List.replicate 5 ⟨0, true, 0, 0, 0⟩⟩
        (classify 0 0 false true false false false 0) 1).2 = []
    ∧ (stepDetected
        ⟨initEmit, none, true, [(0, 0, 0)], some 0, none,
          List.replicate 5 ⟨0, true, 0, 0, 0⟩⟩
        (classify 0 0 false true false false false 0) 1).1.modeAppswitch
      = true := by
  refine ⟨by decide, ?_, ?_⟩ <;>
    norm_num [specMajorityFist, fist_now, maj, frameHist, frameVel,
      stepDetected, classify, dequeAppend, computeVel, vySm, scrollRule,
      zoomRule, historyRule, tabRule, appSwitchRule, idleHold, fireEmit,
      tryEmit, idxOnly, pkyOnly, getExtThumb, initEmit, max_def,
      List.replicate, List.countP, List.countP.go]

/-- C5 (code bug).  A hand with **thumb and index both extended** (all
other fingers retracted) still triggers `scroll_up`: the guard
`feats.get("ext_thumb", False)` in `idx_only` is dead because `_classify`
never stores an `ext_thumb` key, so the thumb is never actually checked,
contradicting the rule's own "index-only" comment and the spec. -/
theorem scroll_thumb_dead_guard_bug :
    (classify 0 0 true false false false true 0).four_ext = 2
    ∧ idxOnly (classify 0 0 true false false false true 0) = true
    ∧ (stepDetected
        ⟨initEmit, none, false, [(0, 0, 0)], some 0, none, []⟩
        (classify 0 0 true false false false true 0) 1).2 = ["scroll_up"] := by
  refine ⟨by decide, by decide, ?_⟩
  norm_num [stepDetected, classify, dequeAppend, computeVel, vySm,
    scrollRule, zoomRule, historyRule, tabRule, appSwitchRule, idleHold,
    fireEmit, tryEmit, idxOnly, pkyOnly, getExtThumb, initEmit, max_def]

/-! Section: C10: sink exceptions are contained by `_emit` -/

/-- C10. A raising sink callback never propagates out of `_emit` nor
changes its behaviour: the gate state and the invoked/dropped outcome are
identical for any two sinks; when the gate passes, the action's timestamp
is set to `now` *before* the callback runs (so it is recorded even for a
raising sink), the failed emission is never retried, and any later
attempt within the cooldown is dropped. -/
theorem emit_sink_exception_isolated
    (sink1 sink2 : String → Except String Unit) (le : String → ℚ)
    (a : String) (cd now t' : ℚ) :
    emitWithSink sink1 le a cd now = emitWithSink sink2 le a cd now
    ∧ (cd ≤ now - le a →
        (emitWithSink sink1 le a cd now).1 a = now
        ∧ (emitWithSink sink1 le a cd now).2 = true
        ∧ (t' - now < cd →
            (emitWithSink sink2 (emitWithSink sink1 le a cd now).1 a cd t').2
              = false)) := by
  constructor
  · unfold emitWithSink
    split
    · cases h1 : sink1 a <;> cases h2 : sink2 a <;> simp
    · rfl
  · intro hgate
    have hfst : (emitWithSink sink1 le a cd now).1
        = fun b => if b = a then now else le b := by
      unfold emitWithSink
      rw [if_pos hgate]
      cases sink1 a <;> rfl
    have hsnd : (emitWithSink sink1 le a cd now).2 = true := by
      unfold emitWithSink
      rw [if_pos hgate]
      cases sink1 a <;> rfl
    refine ⟨by rw [hfst]; simp, hsnd, ?_⟩
    intro hlt
    rw [hfst]
    unfold emitWithSink
    rw [if_neg]
    simp only [not_le]
    simpa using hlt

/-- Witness for C10: a sink that always raises, cooldown `0.25`, first
attempt at `t = 1`, retry at `t = 9/8`. -/
theorem emit_sink_exception_isolated_witness :
    (emitWithSink (fun _ => .error "boom") initEmit "zoom_in" (1/4) 1).1
        "zoom_in" = 1
    ∧ (emitWithSink (fun _ => .error "boom")
        (emitWithSink (fun _ => .error "boom") initEmit "zoom_in" (1/4) 1).1
        "zoom_in" (1/4) (9/8)).2 = false := by
  have h := (emit_sink_exception_isolated (fun _ => .error "boom")
    (fun _ => .error "boom") initEmit "zoom_in" (1/4) 1 (9/8)).2
    (by norm_num [initEmit])
  exact ⟨h.1, h.2.2 (by norm_num)⟩


